import Mathlib

/-!
# Execution state model of `pkg/model/execution_state.go`

A shallow embedding of the execution state enumeration, its derived
predicates, its text encoding, the execution identity and the verification
tally loop of `pkg/test/devstack/utils.go`.

Go's `string` and the `[]byte` text of `MarshalText` and `UnmarshalText` are
both embedded as `String`: the conversions `[]byte(x)` and `string(b)` copy
the bytes unchanged.
-/

/-! ## The enumeration -/

/-- Source: `type ExecutionStateType int`. The constants below are its `iota` values;
like the Go type it also holds integers that are no constant. -/
abbrev ExecutionStateType := Int

def ExecutionStateNew : ExecutionStateType := 0
def ExecutionStateAskForBid : ExecutionStateType := 1
def ExecutionStateAskForBidAccepted : ExecutionStateType := 2
def ExecutionStateAskForBidRejected : ExecutionStateType := 3
def ExecutionStateBidAccepted : ExecutionStateType := 4
def ExecutionStateBidRejected : ExecutionStateType := 5
def ExecutionStateResultProposed : ExecutionStateType := 6
def ExecutionStateResultAccepted : ExecutionStateType := 7
def ExecutionStateResultRejected : ExecutionStateType := 8
def ExecutionStateCompleted : ExecutionStateType := 9
def ExecutionStateFailed : ExecutionStateType := 10
def ExecutionStateCanceled : ExecutionStateType := 11

/-- The loop of `ExecutionStateTypes`:
`for typ := ExecutionStateNew; typ <= ExecutionStateCanceled; typ++ { res = append(res, typ) }`,
entered with the current `typ` and `res`. -/
def ExecutionStateTypes.loop (typ : ExecutionStateType) (res : List ExecutionStateType) :
    List ExecutionStateType :=
  if typ ≤ ExecutionStateCanceled then ExecutionStateTypes.loop (typ + 1) (res ++ [typ]) else res
termination_by (ExecutionStateCanceled + 1 - typ).toNat
decreasing_by
  simp only [ExecutionStateCanceled, ExecutionStateType] at *
  omega

/-- Source: `func ExecutionStateTypes() []ExecutionStateType`. -/
def ExecutionStateTypes : List ExecutionStateType :=
  ExecutionStateTypes.loop ExecutionStateNew []

/-- Source: `func (s ExecutionStateType) IsDiscarded() bool`. -/
def IsDiscarded (s : ExecutionStateType) : Bool :=
  s == ExecutionStateAskForBidRejected || s == ExecutionStateBidRejected ||
    s == ExecutionStateResultRejected ||
    s == ExecutionStateCanceled || s == ExecutionStateFailed

/-- Source: `func (s ExecutionStateType) IsActive() bool`. -/
def IsActive (s : ExecutionStateType) : Bool :=
  s == ExecutionStateBidAccepted || s == ExecutionStateResultProposed ||
    s == ExecutionStateResultAccepted || s == ExecutionStateCompleted

/-- Source: `func (s ExecutionStateType) IsTerminal() bool`. -/
def IsTerminal (s : ExecutionStateType) : Bool :=
  IsDiscarded s || s == ExecutionStateCompleted

/-! ## Text encoding

The generated method `ExecutionStateType.String` and the helper `equal` are
not among the sources; the functions below take them as the parameters
`stringer` and `equal`. -/

/-- Go's `error`: `none` is `nil`, `some msg` an error with that message. -/
abbrev error := Option String

/-- Source: `func (s ExecutionStateType) MarshalText() ([]byte, error)`. -/
def MarshalText (stringer : ExecutionStateType → String) (s : ExecutionStateType) :
    String × error :=
  (stringer s, none)

/-- The loop of `UnmarshalText`, entered with the current `typ`; `s` is the
value the target holds. The result is the target's value and the returned
`err` when the function returns. -/
def UnmarshalText.loop (stringer : ExecutionStateType → String)
    (equal : String → String → Bool) (name : String) (s : ExecutionStateType)
    (typ : ExecutionStateType) : ExecutionStateType × error :=
  if typ ≤ ExecutionStateCanceled then
    if equal (stringer typ) name then (typ, none)
    else UnmarshalText.loop stringer equal name s (typ + 1)
  else (s, none)
termination_by (ExecutionStateCanceled + 1 - typ).toNat
decreasing_by
  simp only [ExecutionStateCanceled, ExecutionStateType] at *
  omega

/-- Source: `func (s *ExecutionStateType) UnmarshalText(text []byte) (err error)`:
the first component is `*s` after the call, the second the returned `err`. -/
def UnmarshalText (stringer : ExecutionStateType → String)
    (equal : String → String → Bool) (s : ExecutionStateType) (text : String) :
    ExecutionStateType × error :=
  let name := text
  UnmarshalText.loop stringer equal name s ExecutionStateNew

/-- Modelled from the spec: the symbolic names of the states as the table of
section 4.2 spells them, for the generated method `ExecutionStateType.String`,
which is not among the sources. It is used only where a concrete `stringer`
is needed. -/
def specStateName (s : ExecutionStateType) : String :=
  if s = ExecutionStateNew then "New"
  else if s = ExecutionStateAskForBid then "AskForBid"
  else if s = ExecutionStateAskForBidAccepted then "AskForBidAccepted"
  else if s = ExecutionStateAskForBidRejected then "AskForBidRejected"
  else if s = ExecutionStateBidAccepted then "BidAccepted"
  else if s = ExecutionStateBidRejected then "BidRejected"
  else if s = ExecutionStateResultProposed then "ResultProposed"
  else if s = ExecutionStateResultAccepted then "ResultAccepted"
  else if s = ExecutionStateResultRejected then "ResultRejected"
  else if s = ExecutionStateCompleted then "Completed"
  else if s = ExecutionStateFailed then "Failed"
  else if s = ExecutionStateCanceled then "Canceled"
  else "ExecutionStateType(" ++ toString s ++ ")"

/-- A concrete name comparison for the examples: equality of the two strings.
The source's `equal` is not among the sources; the general statements hold
for every `equal`. -/
def equalExact (a b : String) : Bool := a == b

/-! ## Identity -/

/-- The library's `fmt.Sprintf`, for the part of the format language the source
uses: the verb `%s` with string operands, `%%`, and literal text. A `%s` with no operand
left prints `%!s(MISSING)` and operands left over are listed after `%!(EXTRA`,
as the library does; other verbs are not modelled. -/
def Sprintf.go : List Char → List String → List Char
  | '%' :: 's' :: rest, a :: args => a.data ++ Sprintf.go rest args
  | '%' :: 's' :: rest, [] => "%!s(MISSING)".data ++ Sprintf.go rest []
  | '%' :: '%' :: rest, args => '%' :: Sprintf.go rest args
  | c :: rest, args => c :: Sprintf.go rest args
  | [], [] => []
  | [], a :: args =>
    ("%!(EXTRA " ++ ", ".intercalate ((a :: args).map fun x => "string=" ++ x) ++ ")").data

/-- The call `fmt.Sprintf(format, args...)` with string operands. -/
def Sprintf (format : String) (args : List String) : String :=
  ⟨Sprintf.go format.data args⟩

set_option linter.dupNamespace false in
/-- Source: `type ExecutionID struct`. -/
structure ExecutionID where
  JobID : String
  NodeID : String
  ExecutionID : String
deriving DecidableEq, Repr

/-- The struct type `ExecutionID` once more: inside the namespace of the
struct its own name stands for the field `ExecutionID`. -/
abbrev ExecutionIDStruct := ExecutionID

/-- Source: `func (e ExecutionID) String() string`; `ShortID` is not among the
sources and is a parameter. -/
def ExecutionID.String (ShortID : String → String) (e : ExecutionIDStruct) : String :=
  Sprintf "%s:%s:%s" [e.JobID, ShortID e.NodeID, e.ExecutionID]

/-- Source: `VerificationResult`, whose declaration is not among the sources: the two
flags the spec gives it (section 6) and the test reads. -/
structure VerificationResult where
  Complete : Bool
  Result : Bool
deriving DecidableEq, Repr

/-- Source: `type ExecutionState struct`. The declarations of `StorageSpec`,
`RunCommandResult` and `time.Time` are not among the sources; they are type
parameters. `RunOutput` is a pointer, `nil` being `none`. -/
structure ExecutionState (StorageSpec RunCommandResult Time : Type) where
  JobID : String
  NodeID : String
  ComputeReference : String
  State : ExecutionStateType
  AcceptedAskForBid : Bool
  Status : String
  VerificationProposal : List UInt8
  VerificationResult : VerificationResult
  PublishedResult : StorageSpec
  RunOutput : Option RunCommandResult
  Version : Int
  CreateTime : Time
  UpdateTime : Time
deriving DecidableEq

section Record
variable {StorageSpec RunCommandResult Time : Type}

/-- Source: `func (e ExecutionState) ID() ExecutionID`. -/
def ExecutionState.ID (e : ExecutionState StorageSpec RunCommandResult Time) : ExecutionID :=
  { JobID := e.JobID, NodeID := e.NodeID, ExecutionID := e.ComputeReference }

/-- Source: `func (e ExecutionState) String() string`. -/
def ExecutionState.String (ShortID : String → String)
    (e : ExecutionState StorageSpec RunCommandResult Time) : String :=
  e.ID.String ShortID

/-- Source: `func (e ExecutionState) HasAcceptedAskForBid() bool`. -/
def ExecutionState.HasAcceptedAskForBid
    (e : ExecutionState StorageSpec RunCommandResult Time) : Bool :=
  e.AcceptedAskForBid

/-! ## The verification tally of `RunDeterministicVerifierTest` -/

/-- The loop over `state.Executions` at the end of
`RunDeterministicVerifierTest`, entered with the counters
`(verifiedCount, failedCount)`. `require.True` stops the test when it fails:
that is the `error` result. The counters are Go `int`s; they never exceed the
length of the slice, so they do not overflow. -/
def RunDeterministicVerifierTest.tally :
    List (ExecutionState StorageSpec RunCommandResult Time) → Int × Int → Except String (Int × Int)
  | [], counts => .ok counts
  | execution :: rest, (verifiedCount, failedCount) =>
    if execution.VerificationResult.Complete then
      if execution.VerificationResult.Result then
        RunDeterministicVerifierTest.tally rest (verifiedCount + 1, failedCount)
      else
        RunDeterministicVerifierTest.tally rest (verifiedCount, failedCount + 1)
    else .error "Should be true"

/-- A record for the concrete examples: job `job-1`, the given node, compute
reference, state and verification result, and no payload. -/
def sampleExecution (node ref : String) (state : ExecutionStateType)
    (result : VerificationResult) : ExecutionState Unit Unit Unit :=
  { JobID := "job-1", NodeID := node, ComputeReference := ref, State := state,
    AcceptedAskForBid := true, Status := "", VerificationProposal := [],
    VerificationResult := result, PublishedResult := (), RunOutput := none,
    Version := 0, CreateTime := (), UpdateTime := () }

end Record

/-! ## The transition table -/

/-- The bounds of the source's loops over the enumeration: `s` is one of the
twelve constants. -/
def isState (s : ExecutionStateType) : Bool :=
  decide (ExecutionStateNew ≤ s) && decide (s ≤ ExecutionStateCanceled)

/-- Modelled from the spec: the transition table of section 4.2, which no
source file implements. Each row's "Legal from" state steps to the row's
state; `Failed` and `Canceled` are reached from any state that is not
terminal. -/
def legalTransition (s t : ExecutionStateType) : Bool :=
  (s == ExecutionStateNew && t == ExecutionStateAskForBid) ||
  (s == ExecutionStateAskForBid && t == ExecutionStateAskForBidAccepted) ||
  (s == ExecutionStateAskForBid && t == ExecutionStateAskForBidRejected) ||
  (s == ExecutionStateAskForBidAccepted && t == ExecutionStateBidAccepted) ||
  (s == ExecutionStateAskForBidAccepted && t == ExecutionStateBidRejected) ||
  (s == ExecutionStateBidAccepted && t == ExecutionStateResultProposed) ||
  (s == ExecutionStateResultProposed && t == ExecutionStateResultAccepted) ||
  (s == ExecutionStateResultProposed && t == ExecutionStateResultRejected) ||
  (s == ExecutionStateResultAccepted && t == ExecutionStateCompleted) ||
  (isState s && !IsTerminal s && (t == ExecutionStateFailed || t == ExecutionStateCanceled))

/-! ## The job execution set

No source file implements the set of a job's execution records; the
definitions of this section follow sections 3, 4.2, 4.3, 7 and 8 of the
spec. -/

section JobExecutionSet
variable {StorageSpec RunCommandResult Time : Type}

/-- Modelled from the spec: the records that the invariant of section 3
counts, for the store of execution records, which is not among the sources:
the records of the set for the job and node that are in an active,
non-terminal state (the states the table of section 4.2 labels active). -/
def JobExecutionSet.activeFor (set : List (ExecutionState StorageSpec RunCommandResult Time))
    (JobID NodeID : String) : List (ExecutionState StorageSpec RunCommandResult Time) :=
  set.filter fun x =>
    x.JobID == JobID && x.NodeID == NodeID && IsActive x.State && !IsTerminal x.State

/-- Modelled from the spec: the single-active-per-node query of section 4.3,
which the store, not among the sources, runs before it creates an execution.
So that it enforces the invariant of section 3, as that section says it does,
it gives every record of the job and node that is still live, in the
glossary's sense of an active execution ("currently running or progressing
toward a finalized, accepted result"): the records not in a terminal state. -/
def JobExecutionSet.liveFor (set : List (ExecutionState StorageSpec RunCommandResult Time))
    (JobID NodeID : String) : List (ExecutionState StorageSpec RunCommandResult Time) :=
  set.filter fun x => x.JobID == JobID && x.NodeID == NodeID && !IsTerminal x.State

/-- Modelled from the spec: creation of an execution in the store, which is
not among the sources. Section 3: the set is keyed by a globally unique
`ExecutionID`, so an identity already in the set is rejected; section 4.3:
creating a new execution for a node that already has an active execution is
rejected with a conflict error; the table of section 4.2: a created record is
in state `New`. -/
def JobExecutionSet.create (set : List (ExecutionState StorageSpec RunCommandResult Time))
    (execution : ExecutionState StorageSpec RunCommandResult Time) :
    Except String (List (ExecutionState StorageSpec RunCommandResult Time)) :=
  if set.any fun x => x.ID == execution.ID then .error "conflict"
  else if (JobExecutionSet.liveFor set execution.JobID execution.NodeID).isEmpty then
    .ok (set ++ [{ execution with State := ExecutionStateNew }])
  else .error "conflict"

/-- Modelled from the spec: the version-checked update of the record with the
given identity, for the store, which is not among the sources. Section 7: a
missing record is a not-found error; sections 4.2 and 8: a version that is not
the stored one is a concurrency conflict, also for a replayed request and for
the loser of a race; a transition that the table does not list is rejected
even when the version matches; an accepted transition sets the state, adds 1
to `Version`, refreshes `UpdateTime` and sets `AcceptedAskForBid` on the step
to `AskForBidAccepted`. -/
def JobExecutionSet.transition :
    List (ExecutionState StorageSpec RunCommandResult Time) → ExecutionID → Int →
      ExecutionStateType → Time →
      Except String (List (ExecutionState StorageSpec RunCommandResult Time))
  | [], _, _, _, _ => .error "not found"
  | x :: rest, id, expectedVersion, state, now =>
    if x.ID == id then
      if x.Version != expectedVersion then .error "concurrency conflict"
      else if !legalTransition x.State state then .error "illegal transition"
      else
        .ok ({ x with
          State := state
          Version := x.Version + 1
          UpdateTime := now
          AcceptedAskForBid :=
            x.AcceptedAskForBid || state == ExecutionStateAskForBidAccepted } :: rest)
    else
      match JobExecutionSet.transition rest id expectedVersion state now with
      | .ok rest' => .ok (x :: rest')
      | .error e => .error e

/-- Modelled from the spec: a request to the store, which is not among the
sources: the creation of a record or a version-checked transition. -/
inductive JobExecutionSet.Request (StorageSpec RunCommandResult Time : Type) where
  | create (execution : ExecutionState StorageSpec RunCommandResult Time)
  | transition (id : ExecutionID) (expectedVersion : Int) (state : ExecutionStateType)
      (now : Time)

/-- Modelled from the spec: the store after a request; a rejected request
leaves the set as it was (section 7). -/
def JobExecutionSet.step (set : List (ExecutionState StorageSpec RunCommandResult Time))
    (request : JobExecutionSet.Request StorageSpec RunCommandResult Time) :
    List (ExecutionState StorageSpec RunCommandResult Time) :=
  match request with
  | .create execution =>
    match JobExecutionSet.create set execution with
    | .ok set' => set'
    | .error _ => set
  | .transition id expectedVersion state now =>
    match JobExecutionSet.transition set id expectedVersion state now with
    | .ok set' => set'
    | .error _ => set

/-- Modelled from the spec: the set a sequence of requests reaches from the
empty set. -/
def JobExecutionSet.reach
    (requests : List (JobExecutionSet.Request StorageSpec RunCommandResult Time)) :
    List (ExecutionState StorageSpec RunCommandResult Time) :=
  requests.foldl JobExecutionSet.step []

end JobExecutionSet

/-- A record to create, for the concrete examples: job `job-1`, the given node
and compute reference, version 0 and no commitment yet. -/
def newExecution (node ref : String) : ExecutionState Unit Unit Unit :=
  { sampleExecution node ref ExecutionStateNew ⟨false, false⟩ with AcceptedAskForBid := false }

/-- The requests of the spec's scenario B (section 8): on node `node-a` a first
execution is created and reaches `AskForBidRejected`; a second is created
afterward and reaches `BidAccepted`. -/
def scenarioB : List (JobExecutionSet.Request Unit Unit Unit) :=
  [.create (newExecution "node-a" "e1"),
    .transition ⟨"job-1", "node-a", "e1"⟩ 0 ExecutionStateAskForBid (),
    .transition ⟨"job-1", "node-a", "e1"⟩ 1 ExecutionStateAskForBidRejected (),
    .create (newExecution "node-a" "e2"),
    .transition ⟨"job-1", "node-a", "e2"⟩ 0 ExecutionStateAskForBid (),
    .transition ⟨"job-1", "node-a", "e2"⟩ 1 ExecutionStateAskForBidAccepted (),
    .transition ⟨"job-1", "node-a", "e2"⟩ 2 ExecutionStateBidAccepted ()]

/-! ## Auxiliary facts -/

theorem stateConsts :
    ExecutionStateNew = 0 ∧ ExecutionStateAskForBid = 1 ∧ ExecutionStateAskForBidAccepted = 2 ∧
    ExecutionStateAskForBidRejected = 3 ∧ ExecutionStateBidAccepted = 4 ∧
    ExecutionStateBidRejected = 5 ∧ ExecutionStateResultProposed = 6 ∧
    ExecutionStateResultAccepted = 7 ∧ ExecutionStateResultRejected = 8 ∧
    ExecutionStateCompleted = 9 ∧ ExecutionStateFailed = 10 ∧ ExecutionStateCanceled = 11 :=
  ⟨rfl, rfl, rfl, rfl, rfl, rfl, rfl, rfl, rfl, rfl, rfl, rfl⟩

theorem ExecutionStateTypes_eq :
    ExecutionStateTypes = [0, 1, 2, 3, 4, 5, 6, 7, 8, 9, 10, 11] := by
  unfold ExecutionStateTypes
  simp [ExecutionStateTypes.loop, stateConsts]

theorem mem_ExecutionStateTypes (s : ExecutionStateType) :
    s ∈ ExecutionStateTypes ↔ (0 ≤ s ∧ s ≤ 11) := by
  rw [ExecutionStateTypes_eq]
  simp only [List.mem_cons, List.mem_singleton, List.not_mem_nil, or_false, ExecutionStateType]
  omega

theorem Sprintf_three (a b c : String) :
    Sprintf "%s:%s:%s" [a, b, c] = a ++ ":" ++ b ++ ":" ++ c := by
  apply String.ext
  simp [Sprintf, Sprintf.go]

/-- When no state in the rest of the loop matches, the loop leaves the target
as it is and returns a nil error. -/
theorem UnmarshalText.loop_no_match (stringer : ExecutionStateType → String)
    (equal : String → String → Bool) (name : String) (s : ExecutionStateType) (n : Nat) :
    ∀ typ : ExecutionStateType, (ExecutionStateCanceled + 1 - typ).toNat = n →
      (∀ k, typ ≤ k → k ≤ ExecutionStateCanceled → equal (stringer k) name = false) →
      UnmarshalText.loop stringer equal name s typ = (s, none) := by
  induction n with
  | zero =>
    intro typ hn _
    rw [UnmarshalText.loop]
    simp only [stateConsts, ExecutionStateType] at hn ⊢
    rw [if_neg (by omega)]
  | succ n ih =>
    intro typ hn hk
    rw [UnmarshalText.loop]
    simp only [stateConsts, ExecutionStateType] at hn hk ⊢
    rw [if_pos (by omega), hk typ (le_refl _) (by omega)]
    simp only [Bool.false_eq_true, if_false]
    exact ih (typ + 1) (by simp only [stateConsts, ExecutionStateType]; omega)
      (by
        intro k h1 h2
        simp only [stateConsts, ExecutionStateType] at h1 h2 ⊢
        exact hk k (by omega) h2)

/-- The loop stops at the first state whose name matches. -/
theorem UnmarshalText.loop_first_match (stringer : ExecutionStateType → String)
    (equal : String → String → Bool) (name : String) (s t : ExecutionStateType)
    (ht : t ≤ ExecutionStateCanceled) (hmatch : equal (stringer t) name = true) (n : Nat) :
    ∀ typ : ExecutionStateType, (t - typ).toNat = n → typ ≤ t →
      (∀ k, typ ≤ k → k < t → equal (stringer k) name = false) →
      UnmarshalText.loop stringer equal name s typ = (t, none) := by
  induction n with
  | zero =>
    intro typ hn hle _
    simp only [stateConsts, ExecutionStateType] at hn hle ht
    have : typ = t := by
      simp only [ExecutionStateType]
      omega
    subst this
    rw [UnmarshalText.loop]
    simp only [stateConsts, ExecutionStateType]
    rw [if_pos ht, if_pos hmatch]
  | succ n ih =>
    intro typ hn hle hk
    simp only [stateConsts, ExecutionStateType] at hn hle ht hk
    rw [UnmarshalText.loop]
    simp only [stateConsts, ExecutionStateType]
    rw [if_pos (by omega), hk typ (le_refl _) (by omega)]
    simp only [Bool.false_eq_true, if_false]
    exact ih (typ + 1) (by simp only [ExecutionStateType]; omega)
      (by simp only [ExecutionStateType]; omega)
      (by
        intro k h1 h2
        simp only [ExecutionStateType] at h1 h2 ⊢
        exact hk k (by omega) h2)

/-- Under `specStateName` distinct states have distinct names. -/
theorem specStateName_injective (a b : ExecutionStateType)
    (ha : a ∈ ExecutionStateTypes) (hb : b ∈ ExecutionStateTypes)
    (h : equalExact (specStateName a) (specStateName b) = true) : a = b := by
  rw [mem_ExecutionStateTypes] at ha hb
  simp only [ExecutionStateType] at ha hb h ⊢
  obtain ⟨ha0, ha1⟩ := ha
  obtain ⟨hb0, hb1⟩ := hb
  interval_cases a <;> interval_cases b <;>
    first
      | rfl
      | (exfalso; revert h; simp [specStateName, equalExact, stateConsts])

/-! ## The derived predicates -/

/-- C1: for every execution state `s`, `IsTerminal s` is true exactly when
`IsDiscarded s` is true or `s` is `Completed`; so the terminal states are the
five discarded ones and `Completed`. -/
theorem IsTerminal_iff_discarded_or_completed (s : ExecutionStateType) :
    (IsTerminal s = true ↔ (IsDiscarded s = true ∨ s = ExecutionStateCompleted)) ∧
    (IsTerminal s = true ↔
      (s = ExecutionStateAskForBidRejected ∨ s = ExecutionStateBidRejected ∨
        s = ExecutionStateResultRejected ∨ s = ExecutionStateCanceled ∨
        s = ExecutionStateFailed ∨ s = ExecutionStateCompleted)) := by
  constructor
  · simp [IsTerminal]
  · simp [IsTerminal, IsDiscarded, or_assoc]

/-- C5: for every execution state `s`, `IsDiscarded s` is true exactly for
`AskForBidRejected`, `BidRejected`, `ResultRejected`, `Canceled` and `Failed`;
it is false for the seven other states. -/
theorem IsDiscarded_iff (s : ExecutionStateType) :
    (IsDiscarded s = true ↔
      (s = ExecutionStateAskForBidRejected ∨ s = ExecutionStateBidRejected ∨
        s = ExecutionStateResultRejected ∨ s = ExecutionStateCanceled ∨
        s = ExecutionStateFailed)) ∧
    IsDiscarded ExecutionStateNew = false ∧
    IsDiscarded ExecutionStateAskForBid = false ∧
    IsDiscarded ExecutionStateAskForBidAccepted = false ∧
    IsDiscarded ExecutionStateBidAccepted = false ∧
    IsDiscarded ExecutionStateResultProposed = false ∧
    IsDiscarded ExecutionStateResultAccepted = false ∧
    IsDiscarded ExecutionStateCompleted = false := by
  refine ⟨?_, by decide, by decide, by decide, by decide, by decide, by decide, by decide⟩
  simp [IsDiscarded, or_assoc]

/-- C6, as the claim states it, fails at `Completed`: `IsActive` is true
there, although `Completed` is none of `BidAccepted`, `ResultProposed`,
`ResultAccepted`. -/
theorem IsActive_Completed_counterexample :
    IsActive ExecutionStateCompleted = true ∧
    ExecutionStateCompleted ≠ ExecutionStateBidAccepted ∧
    ExecutionStateCompleted ≠ ExecutionStateResultProposed ∧
    ExecutionStateCompleted ≠ ExecutionStateResultAccepted := by
  decide

/-- C6, amended: for every execution state `s`, `IsActive s` is true exactly
for `BidAccepted`, `ResultProposed`, `ResultAccepted` and `Completed`; it is
false for the eight other states. -/
theorem IsActive_iff (s : ExecutionStateType) :
    (IsActive s = true ↔
      (s = ExecutionStateBidAccepted ∨ s = ExecutionStateResultProposed ∨
        s = ExecutionStateResultAccepted ∨ s = ExecutionStateCompleted)) ∧
    IsActive ExecutionStateNew = false ∧
    IsActive ExecutionStateAskForBid = false ∧
    IsActive ExecutionStateAskForBidAccepted = false ∧
    IsActive ExecutionStateAskForBidRejected = false ∧
    IsActive ExecutionStateBidRejected = false ∧
    IsActive ExecutionStateResultRejected = false ∧
    IsActive ExecutionStateFailed = false ∧
    IsActive ExecutionStateCanceled = false := by
  refine ⟨?_, by decide, by decide, by decide, by decide, by decide, by decide, by decide,
    by decide⟩
  simp [IsActive, or_assoc]

/-- C4: with the transition table of section 4.2 as the step relation, a
state `s` with `IsTerminal s` true has no legal transition to any state `t`;
so `s` is none of the table's "Legal from" states `New`, `AskForBid`,
`AskForBidAccepted`, `BidAccepted`, `ResultProposed`, `ResultAccepted`. -/
theorem terminal_has_no_legalTransition (s : ExecutionStateType)
    (hs : IsTerminal s = true) :
    (∀ t, legalTransition s t = false) ∧
    s ≠ ExecutionStateNew ∧ s ≠ ExecutionStateAskForBid ∧
    s ≠ ExecutionStateAskForBidAccepted ∧ s ≠ ExecutionStateBidAccepted ∧
    s ≠ ExecutionStateResultProposed ∧ s ≠ ExecutionStateResultAccepted := by
  have hcases : s = 3 ∨ s = 5 ∨ s = 8 ∨ s = 9 ∨ s = 10 ∨ s = 11 := by
    simp only [IsTerminal, IsDiscarded, stateConsts, Bool.or_eq_true, beq_iff_eq] at hs
    simp only [ExecutionStateType] at hs ⊢
    omega
  refine ⟨?_, ?_⟩
  · intro t
    rcases hcases with h | h | h | h | h | h <;> subst h <;>
      simp [legalTransition, isState, IsTerminal, IsDiscarded, stateConsts]
  · rcases hcases with h | h | h | h | h | h <;> subst h <;> decide

/-- C4 at `Completed`: it is terminal, and no transition leaves it. -/
theorem terminal_has_no_legalTransition_witness :
    IsTerminal ExecutionStateCompleted = true ∧
    ((∀ t, legalTransition ExecutionStateCompleted t = false) ∧
    ExecutionStateCompleted ≠ ExecutionStateNew ∧
    ExecutionStateCompleted ≠ ExecutionStateAskForBid ∧
    ExecutionStateCompleted ≠ ExecutionStateAskForBidAccepted ∧
    ExecutionStateCompleted ≠ ExecutionStateBidAccepted ∧
    ExecutionStateCompleted ≠ ExecutionStateResultProposed ∧
    ExecutionStateCompleted ≠ ExecutionStateResultAccepted) :=
  ⟨by decide, terminal_has_no_legalTransition ExecutionStateCompleted (by decide)⟩

/-! ## The text encoding -/

/-- The loop of `UnmarshalText` returns a nil error from every entry point. -/
theorem UnmarshalText.loop_err_nil (stringer : ExecutionStateType → String)
    (equal : String → String → Bool) (name : String) (s : ExecutionStateType) (n : Nat) :
    ∀ typ : ExecutionStateType, (ExecutionStateCanceled + 1 - typ).toNat = n →
      (UnmarshalText.loop stringer equal name s typ).2 = none := by
  induction n with
  | zero =>
    intro typ hn
    rw [UnmarshalText.loop]
    simp only [stateConsts, ExecutionStateType] at hn ⊢
    rw [if_neg (by omega)]
  | succ n ih =>
    intro typ hn
    rw [UnmarshalText.loop]
    simp only [stateConsts, ExecutionStateType] at hn ⊢
    rw [if_pos (by omega)]
    by_cases hm : equal (stringer typ) name = true
    · rw [if_pos hm]
    · rw [if_neg hm]
      exact ih (typ + 1) (by simp only [stateConsts, ExecutionStateType]; omega)

/-- C2, as the claim states it, fails: `Bogus` is the name of none of the
twelve states, yet decoding it returns a nil error and leaves the target as it
was, `New` for a zero-valued target; and no input at all makes `UnmarshalText`
return an error. -/
theorem UnmarshalText_unknown_name_counterexample :
    (∀ t ∈ ExecutionStateTypes, specStateName t ≠ "Bogus") ∧
    UnmarshalText specStateName equalExact ExecutionStateNew "Bogus" =
      (ExecutionStateNew, none) ∧
    UnmarshalText specStateName equalExact ExecutionStateCompleted "Bogus" =
      (ExecutionStateCompleted, none) ∧
    ¬ ∃ (stringer : ExecutionStateType → String) (equal : String → String → Bool)
        (s : ExecutionStateType) (text : String),
        (UnmarshalText stringer equal s text).2 ≠ none := by
  refine ⟨?_, ?_, ?_, ?_⟩
  · rw [ExecutionStateTypes_eq]
    simp [specStateName, stateConsts]
  · simp [UnmarshalText, UnmarshalText.loop, specStateName, equalExact, stateConsts]
  · simp [UnmarshalText, UnmarshalText.loop, specStateName, equalExact, stateConsts]
  · rintro ⟨stringer, equal, s, text, h⟩
    exact h (UnmarshalText.loop_err_nil stringer equal text s _ ExecutionStateNew rfl)

/-- C2, amended: for every text that matches no state's symbolic name under
`equal`, `UnmarshalText` returns a nil error and leaves the target exactly as
it was. -/
theorem UnmarshalText_no_match (stringer : ExecutionStateType → String)
    (equal : String → String → Bool) (s : ExecutionStateType) (text : String)
    (h : ∀ t ∈ ExecutionStateTypes, equal (stringer t) text = false) :
    UnmarshalText stringer equal s text = (s, none) := by
  unfold UnmarshalText
  refine UnmarshalText.loop_no_match stringer equal text s _ ExecutionStateNew rfl ?_
  intro k h1 h2
  refine h k ((mem_ExecutionStateTypes k).2 ?_)
  simp only [stateConsts, ExecutionStateType] at h1 h2 ⊢
  exact ⟨h1, h2⟩

/-- C2, amended, at the text `Bogus` and a target holding `Failed`. -/
theorem UnmarshalText_no_match_witness :
    (∀ t ∈ ExecutionStateTypes, equalExact (specStateName t) "Bogus" = false) ∧
    UnmarshalText specStateName equalExact ExecutionStateFailed "Bogus" =
      (ExecutionStateFailed, none) :=
  have h : ∀ t ∈ ExecutionStateTypes, equalExact (specStateName t) "Bogus" = false := by
    rw [ExecutionStateTypes_eq]
    simp [specStateName, equalExact, stateConsts]
  ⟨h, UnmarshalText_no_match specStateName equalExact ExecutionStateFailed "Bogus" h⟩

/-- C3: when `equal` accepts identical strings and the names of the twelve
states are pairwise distinct under `equal`, then for every execution state `s`
and every prior value of the target, `MarshalText s` succeeds with the name of
`s`, and `UnmarshalText` on that output sets the target to `s` with a nil
error. -/
theorem MarshalText_UnmarshalText_roundtrip (stringer : ExecutionStateType → String)
    (equal : String → String → Bool)
    (hrefl : ∀ x, equal x x = true)
    (hdistinct : ∀ a ∈ ExecutionStateTypes, ∀ b ∈ ExecutionStateTypes,
      equal (stringer a) (stringer b) = true → a = b)
    (s prior : ExecutionStateType) (hs : s ∈ ExecutionStateTypes) :
    (MarshalText stringer s).2 = none ∧
    UnmarshalText stringer equal prior (MarshalText stringer s).1 = (s, none) := by
  refine ⟨rfl, ?_⟩
  have hs' := (mem_ExecutionStateTypes s).1 hs
  simp only [ExecutionStateType] at hs'
  unfold UnmarshalText MarshalText
  refine UnmarshalText.loop_first_match stringer equal (stringer s) prior s ?_ (hrefl _) _
    ExecutionStateNew rfl ?_ ?_
  · simp only [stateConsts, ExecutionStateType]
    exact hs'.2
  · simp only [stateConsts, ExecutionStateType]
    exact hs'.1
  · intro k h1 h2
    simp only [stateConsts, ExecutionStateType] at h1 h2
    have hk : k ∈ ExecutionStateTypes := by
      refine (mem_ExecutionStateTypes k).2 ?_
      simp only [ExecutionStateType]
      omega
    cases hm : equal (stringer k) (stringer s) with
    | false => rfl
    | true =>
      have := hdistinct k hk s hs hm
      simp only [ExecutionStateType] at this
      omega

/-- C3 at the names of the spec's table compared by string equality: encoding
`ResultProposed` and decoding into a target that held `Failed`. -/
theorem MarshalText_UnmarshalText_roundtrip_witness :
    (∀ x, equalExact x x = true) ∧
    (∀ a ∈ ExecutionStateTypes, ∀ b ∈ ExecutionStateTypes,
      equalExact (specStateName a) (specStateName b) = true → a = b) ∧
    ExecutionStateResultProposed ∈ ExecutionStateTypes ∧
    (MarshalText specStateName ExecutionStateResultProposed).2 = none ∧
    UnmarshalText specStateName equalExact ExecutionStateFailed
      (MarshalText specStateName ExecutionStateResultProposed).1 =
      (ExecutionStateResultProposed, none) :=
  have hrefl : ∀ x, equalExact x x = true := by
    intro x
    simp [equalExact]
  have hdistinct : ∀ a ∈ ExecutionStateTypes, ∀ b ∈ ExecutionStateTypes,
      equalExact (specStateName a) (specStateName b) = true → a = b :=
    fun a ha b hb h => specStateName_injective a b ha hb h
  have hmem : ExecutionStateResultProposed ∈ ExecutionStateTypes := by
    rw [ExecutionStateTypes_eq]
    decide
  ⟨hrefl, hdistinct, hmem,
    MarshalText_UnmarshalText_roundtrip specStateName equalExact hrefl hdistinct
      ExecutionStateResultProposed ExecutionStateFailed hmem⟩

/-! ## The verification tally -/

section Tally
variable {StorageSpec RunCommandResult Time : Type}

/-- From any counters, the tally loop over records that are all complete adds
the number of passed records to the first counter and the number of failed
ones to the second. -/
theorem RunDeterministicVerifierTest.tally_from
    (executions : List (ExecutionState StorageSpec RunCommandResult Time)) :
    ∀ verifiedCount failedCount : Int,
      (∀ e ∈ executions, e.VerificationResult.Complete = true) →
      RunDeterministicVerifierTest.tally executions (verifiedCount, failedCount) =
        .ok (verifiedCount + (executions.countP fun e => e.VerificationResult.Result),
          failedCount + (executions.countP fun e => !e.VerificationResult.Result)) := by
  induction executions with
  | nil =>
    intro v f _
    simp [RunDeterministicVerifierTest.tally]
  | cons e rest ih =>
    intro v f h
    have he : e.VerificationResult.Complete = true := h e (List.mem_cons_self _ _)
    have hrest : ∀ x ∈ rest, x.VerificationResult.Complete = true :=
      fun x hx => h x (List.mem_cons_of_mem _ hx)
    cases hr : e.VerificationResult.Result with
    | true =>
      simp only [RunDeterministicVerifierTest.tally, he, hr, if_true]
      rw [ih (v + 1) f hrest]
      simp [List.countP_cons, hr]
      omega
    | false =>
      simp only [RunDeterministicVerifierTest.tally, he, hr, if_true, Bool.false_eq_true,
        if_false]
      rw [ih v (f + 1) hrest]
      simp [List.countP_cons, hr]
      omega

/-- C8: for every list of execution records whose `VerificationResult.Complete`
is true throughout, the tally loop ends with passed equal to the number of
records whose `Result` is true and failed equal to the number whose `Result`
is false, and passed plus failed is the number of records. -/
theorem RunDeterministicVerifierTest.tally_counts
    (executions : List (ExecutionState StorageSpec RunCommandResult Time))
    (h : ∀ e ∈ executions, e.VerificationResult.Complete = true) :
    RunDeterministicVerifierTest.tally executions (0, 0) =
      .ok (((executions.countP fun e => e.VerificationResult.Result : Nat) : Int),
        ((executions.countP fun e => !e.VerificationResult.Result : Nat) : Int)) ∧
    (executions.countP fun e => e.VerificationResult.Result) +
      (executions.countP fun e => !e.VerificationResult.Result) = executions.length := by
  refine ⟨?_, ?_⟩
  · rw [RunDeterministicVerifierTest.tally_from executions 0 0 h]
    simp
  · induction executions with
    | nil => simp
    | cons e rest ih =>
      have := ih (fun x hx => h x (List.mem_cons_of_mem _ hx))
      cases hr : e.VerificationResult.Result <;> simp [List.countP_cons, hr] <;> omega

end Tally

/-- C8 at three complete records with results true, true, false: passed is 2
and failed is 1. -/
theorem RunDeterministicVerifierTest.tally_counts_witness :
    (∀ e ∈ [sampleExecution "node-a" "e1" ExecutionStateCompleted ⟨true, true⟩,
        sampleExecution "node-b" "e2" ExecutionStateCompleted ⟨true, true⟩,
        sampleExecution "node-c" "e3" ExecutionStateResultRejected ⟨true, false⟩],
      e.VerificationResult.Complete = true) ∧
    RunDeterministicVerifierTest.tally
      [sampleExecution "node-a" "e1" ExecutionStateCompleted ⟨true, true⟩,
        sampleExecution "node-b" "e2" ExecutionStateCompleted ⟨true, true⟩,
        sampleExecution "node-c" "e3" ExecutionStateResultRejected ⟨true, false⟩] (0, 0) =
      .ok (2, 1) :=
  have h : ∀ e ∈ [sampleExecution "node-a" "e1" ExecutionStateCompleted ⟨true, true⟩,
      sampleExecution "node-b" "e2" ExecutionStateCompleted ⟨true, true⟩,
      sampleExecution "node-c" "e3" ExecutionStateResultRejected ⟨true, false⟩],
      e.VerificationResult.Complete = true := by
    intro e he
    simp only [List.mem_cons, List.mem_singleton, List.not_mem_nil, or_false] at he
    rcases he with rfl | rfl | rfl <;> rfl
  ⟨h, (RunDeterministicVerifierTest.tally_counts _ h).1⟩

/-! ## Identity -/

section Identity
variable {StorageSpec RunCommandResult Time : Type}

/-- C9: for every execution record `e`, `ID e` has `e.JobID`, `e.NodeID` and
`e.ComputeReference` as its `JobID`, `NodeID` and `ExecutionID`; hence two
records have the same `ID` exactly when they agree on these three fields,
whatever their other fields hold. -/
theorem ExecutionState.ID_eq_iff (e1 e2 : ExecutionState StorageSpec RunCommandResult Time) :
    e1.ID.JobID = e1.JobID ∧ e1.ID.NodeID = e1.NodeID ∧
    e1.ID.ExecutionID = e1.ComputeReference ∧
    (e1.ID = e2.ID ↔
      (e1.JobID = e2.JobID ∧ e1.NodeID = e2.NodeID ∧
        e1.ComputeReference = e2.ComputeReference)) := by
  refine ⟨rfl, rfl, rfl, ?_⟩
  simp [ExecutionState.ID]

/-- C10: for every `ExecutionID` `x`, `String x` is `x.JobID`, a colon,
`ShortID x.NodeID`, a colon and `x.ExecutionID`, in that order; for every
execution record `e`, `String e` is `String (ID e)`, that is `e.JobID`, a
colon, `ShortID e.NodeID`, a colon and `e.ComputeReference`. Empty components
are rendered like any other. -/
theorem ExecutionID_String_rendering (ShortID : String → String) (x : ExecutionID)
    (e : ExecutionState StorageSpec RunCommandResult Time) :
    x.String ShortID = x.JobID ++ ":" ++ ShortID x.NodeID ++ ":" ++ x.ExecutionID ∧
    e.String ShortID = e.ID.String ShortID ∧
    e.String ShortID = e.JobID ++ ":" ++ ShortID e.NodeID ++ ":" ++ e.ComputeReference ∧
    ExecutionID.String ShortID ⟨"", "", ""⟩ = ":" ++ ShortID "" ++ ":" := by
  refine ⟨?_, rfl, ?_, ?_⟩
  · simp [ExecutionID.String, Sprintf_three]
  · simp [ExecutionState.String, ExecutionState.ID, ExecutionID.String, Sprintf_three]
  · simp [ExecutionID.String, Sprintf_three]

end Identity

/-! ## The enumeration order -/

/-- C13: `ExecutionStateTypes()` returns the twelve states in creation order,
`New`, `AskForBid`, `AskForBidAccepted`, `AskForBidRejected`, `BidAccepted`,
`BidRejected`, `ResultProposed`, `ResultAccepted`, `ResultRejected`,
`Completed`, `Failed`, `Canceled`: a list of length 12, strictly increasing in
ordinal and so without duplicates, in which every state of the enumeration
occurs. -/
theorem ExecutionStateTypes_creation_order :
    ExecutionStateTypes =
      [ExecutionStateNew, ExecutionStateAskForBid, ExecutionStateAskForBidAccepted,
        ExecutionStateAskForBidRejected, ExecutionStateBidAccepted, ExecutionStateBidRejected,
        ExecutionStateResultProposed, ExecutionStateResultAccepted,
        ExecutionStateResultRejected, ExecutionStateCompleted, ExecutionStateFailed,
        ExecutionStateCanceled] ∧
    ExecutionStateTypes.length = 12 ∧
    ExecutionStateTypes.Pairwise (fun a b => a < b) ∧
    ExecutionStateTypes.Nodup ∧
    (∀ s : ExecutionStateType, isState s = true ↔ s ∈ ExecutionStateTypes) := by
  refine ⟨?_, ?_, ?_, ?_, ?_⟩
  · rw [ExecutionStateTypes_eq]
    simp only [stateConsts]
  · rw [ExecutionStateTypes_eq]
    rfl
  · rw [ExecutionStateTypes_eq]
    decide
  · rw [ExecutionStateTypes_eq]
    decide
  · intro s
    rw [mem_ExecutionStateTypes]
    simp [isState, stateConsts]

/-- C12: the state never regresses in the enumeration order: for every legal
transition from `s` to `t` of the table of section 4.2, the ordinal of `t` is
strictly greater than the ordinal of `s`. -/
theorem legalTransition_increases (s t : ExecutionStateType)
    (h : legalTransition s t = true) : s < t := by
  simp only [legalTransition, isState, IsTerminal, IsDiscarded, stateConsts, Bool.or_eq_true,
    Bool.and_eq_true, beq_iff_eq, decide_eq_true_eq, Bool.not_eq_true', Bool.or_eq_false_iff,
    beq_eq_false_iff_ne, ne_eq] at h
  simp only [ExecutionStateType] at h ⊢
  omega

/-- C12 at the step from `ResultAccepted` to `Completed`. -/
theorem legalTransition_increases_witness :
    legalTransition ExecutionStateResultAccepted ExecutionStateCompleted = true ∧
    ExecutionStateResultAccepted < ExecutionStateCompleted :=
  ⟨by decide,
    legalTransition_increases ExecutionStateResultAccepted ExecutionStateCompleted (by decide)⟩

/-! ## Active, discarded and terminal states together -/

/-- C14: `IsActive` is true at `Completed`, and for every execution state `s`,
`IsActive s` and `IsTerminal s` both hold exactly when `s` is `Completed`; so
the active, non-terminal states are exactly `BidAccepted`, `ResultProposed`
and `ResultAccepted`. -/
theorem IsActive_and_IsTerminal_iff (s : ExecutionStateType) :
    IsActive ExecutionStateCompleted = true ∧
    ((IsActive s = true ∧ IsTerminal s = true) ↔ s = ExecutionStateCompleted) ∧
    ((IsActive s = true ∧ IsTerminal s = false) ↔
      (s = ExecutionStateBidAccepted ∨ s = ExecutionStateResultProposed ∨
        s = ExecutionStateResultAccepted)) := by
  refine ⟨by decide, ?_, ?_⟩
  · simp only [IsActive, IsTerminal, IsDiscarded, stateConsts, Bool.or_eq_true, beq_iff_eq]
    simp only [ExecutionStateType]
    omega
  · simp only [IsActive, IsTerminal, IsDiscarded, stateConsts, Bool.or_eq_true, beq_iff_eq,
      Bool.or_eq_false_iff, beq_eq_false_iff_ne, ne_eq]
    simp only [ExecutionStateType]
    omega

/-- C15: no execution state is both active and discarded; and among the twelve
states, those neither active nor discarded are exactly `New`, `AskForBid` and
`AskForBidAccepted`, which are also exactly those neither active nor
terminal. -/
theorem IsActive_IsDiscarded_disjoint (s : ExecutionStateType)
    (hs : s ∈ ExecutionStateTypes) :
    ¬ (IsActive s = true ∧ IsDiscarded s = true) ∧
    ((IsActive s = false ∧ IsDiscarded s = false) ↔
      (s = ExecutionStateNew ∨ s = ExecutionStateAskForBid ∨
        s = ExecutionStateAskForBidAccepted)) ∧
    ((IsActive s = false ∧ IsTerminal s = false) ↔
      (s = ExecutionStateNew ∨ s = ExecutionStateAskForBid ∨
        s = ExecutionStateAskForBidAccepted)) := by
  rw [mem_ExecutionStateTypes] at hs
  simp only [ExecutionStateType] at hs
  refine ⟨?_, ?_, ?_⟩
  · simp only [IsActive, IsDiscarded, stateConsts, Bool.or_eq_true, beq_iff_eq]
    simp only [ExecutionStateType]
    omega
  · simp only [IsActive, IsDiscarded, stateConsts, Bool.or_eq_false_iff, beq_eq_false_iff_ne,
      ne_eq]
    simp only [ExecutionStateType]
    omega
  · simp only [IsActive, IsTerminal, IsDiscarded, stateConsts, Bool.or_eq_false_iff,
      beq_eq_false_iff_ne, ne_eq]
    simp only [ExecutionStateType]
    omega

/-- C15 at `AskForBid`: neither active, nor discarded, nor terminal. -/
theorem IsActive_IsDiscarded_disjoint_witness :
    ExecutionStateAskForBid ∈ ExecutionStateTypes ∧
    ¬ (IsActive ExecutionStateAskForBid = true ∧ IsDiscarded ExecutionStateAskForBid = true) ∧
    IsActive ExecutionStateAskForBid = false ∧ IsDiscarded ExecutionStateAskForBid = false ∧
    IsTerminal ExecutionStateAskForBid = false :=
  have hmem : ExecutionStateAskForBid ∈ ExecutionStateTypes := by
    rw [ExecutionStateTypes_eq]
    decide
  ⟨hmem, (IsActive_IsDiscarded_disjoint ExecutionStateAskForBid hmem).1,
    by decide, by decide, by decide⟩

/-! ## The text encoding, as the code has it -/

/-- C11: for every execution state `s`, `MarshalText s` returns a nil error
and its bytes are exactly the symbolic name `String s`; with the names of the
spec's table these bytes are, for each of the twelve states, different from
the decimal rendering of the ordinal. -/
theorem MarshalText_is_name (stringer : ExecutionStateType → String)
    (s : ExecutionStateType) :
    (MarshalText stringer s).2 = none ∧
    (MarshalText stringer s).1 = stringer s ∧
    (∀ t ∈ ExecutionStateTypes, (MarshalText specStateName t).1 ≠ toString t) ∧
    (MarshalText specStateName ExecutionStateResultProposed).1 = "ResultProposed" := by
  refine ⟨rfl, rfl, ?_, ?_⟩
  · rw [ExecutionStateTypes_eq]
    simp only [MarshalText]
    decide
  · decide

/-- C16: `UnmarshalText` returns a nil error for every input text; the target
becomes the first state of `ExecutionStateTypes()` whose name matches the text
under `equal`, that is the matching state of lowest ordinal, and is left
exactly as it was when no state's name matches. -/
theorem UnmarshalText_frame (stringer : ExecutionStateType → String)
    (equal : String → String → Bool) (s : ExecutionStateType) (text : String) :
    (UnmarshalText stringer equal s text).2 = none ∧
    ((∀ t ∈ ExecutionStateTypes, equal (stringer t) text = false) →
      (UnmarshalText stringer equal s text).1 = s) ∧
    (∀ t ∈ ExecutionStateTypes, equal (stringer t) text = true →
      (∀ k ∈ ExecutionStateTypes, k < t → equal (stringer k) text = false) →
      (UnmarshalText stringer equal s text).1 = t) ∧
    (UnmarshalText stringer equal s text).1 =
      (ExecutionStateTypes.find? fun t => equal (stringer t) text).getD s := by
  refine ⟨?_, ?_, ?_, ?_⟩
  · exact UnmarshalText.loop_err_nil stringer equal text s _ ExecutionStateNew rfl
  · intro h
    unfold UnmarshalText
    rw [UnmarshalText.loop_no_match stringer equal text s _ ExecutionStateNew rfl]
    intro k h1 h2
    refine h k ((mem_ExecutionStateTypes k).2 ?_)
    simp only [stateConsts, ExecutionStateType] at h1 h2 ⊢
    exact ⟨h1, h2⟩
  · intro t ht hmatch hfirst
    have ht' := (mem_ExecutionStateTypes t).1 ht
    simp only [ExecutionStateType] at ht'
    unfold UnmarshalText
    rw [UnmarshalText.loop_first_match stringer equal text s t
      (by simp only [stateConsts, ExecutionStateType]; exact ht'.2) hmatch _
      ExecutionStateNew rfl (by simp only [stateConsts, ExecutionStateType]; exact ht'.1)]
    intro k h1 h2
    simp only [stateConsts, ExecutionStateType] at h1 h2
    refine hfirst k ((mem_ExecutionStateTypes k).2 ?_) h2
    simp only [ExecutionStateType]
    omega
  · rw [ExecutionStateTypes_eq]
    simp only [UnmarshalText]
    simp [UnmarshalText.loop, stateConsts, List.find?_cons]
    cases equal (stringer 0) text <;> simp
    cases equal (stringer 1) text <;> simp
    cases equal (stringer 2) text <;> simp
    cases equal (stringer 3) text <;> simp
    cases equal (stringer 4) text <;> simp
    cases equal (stringer 5) text <;> simp
    cases equal (stringer 6) text <;> simp
    cases equal (stringer 7) text <;> simp
    cases equal (stringer 8) text <;> simp
    cases equal (stringer 9) text <;> simp
    cases equal (stringer 10) text <;> simp
    cases equal (stringer 11) text <;> simp

/-- C16 at a naming in which `BidRejected` shares the name of
`AskForBidRejected`: decoding that name gives `AskForBidRejected`, the
matching state of lowest ordinal; and decoding `Bogus` with the names of the
spec's table leaves a target holding `Failed` as it was. -/
theorem UnmarshalText_frame_witness :
    equalExact
      ((fun t => if t = ExecutionStateBidRejected then "AskForBidRejected"
        else specStateName t) ExecutionStateBidRejected) "AskForBidRejected" = true ∧
    (UnmarshalText
      (fun t => if t = ExecutionStateBidRejected then "AskForBidRejected" else specStateName t)
      equalExact ExecutionStateNew "AskForBidRejected").1 = ExecutionStateAskForBidRejected ∧
    (UnmarshalText specStateName equalExact ExecutionStateFailed "Bogus").1 =
      ExecutionStateFailed ∧
    (UnmarshalText specStateName equalExact ExecutionStateFailed "Bogus").2 = none :=
  have hmem : ExecutionStateAskForBidRejected ∈ ExecutionStateTypes := by
    rw [ExecutionStateTypes_eq]
    decide
  have hfirst : ∀ k ∈ ExecutionStateTypes, k < ExecutionStateAskForBidRejected →
      equalExact
        ((fun t => if t = ExecutionStateBidRejected then "AskForBidRejected"
          else specStateName t) k) "AskForBidRejected" = false := by
    intro k hk hlt
    rw [mem_ExecutionStateTypes] at hk
    simp only [stateConsts, ExecutionStateType] at hk hlt
    obtain ⟨h0, _⟩ := hk
    interval_cases k <;> simp [specStateName, equalExact, stateConsts]
  have hnone : ∀ t ∈ ExecutionStateTypes, equalExact (specStateName t) "Bogus" = false := by
    rw [ExecutionStateTypes_eq]
    simp [specStateName, equalExact, stateConsts]
  ⟨by decide,
    (UnmarshalText_frame _ equalExact ExecutionStateNew "AskForBidRejected").2.2.1
      ExecutionStateAskForBidRejected hmem (by decide) hfirst,
    (UnmarshalText_frame specStateName equalExact ExecutionStateFailed "Bogus").2.1 hnone,
    (UnmarshalText_frame specStateName equalExact ExecutionStateFailed "Bogus").1⟩

/-! ## The rendering of an execution identity -/

/-- C17: the string rendering of `ExecutionID` is not injective: whatever
`ShortID` is, for every node there are two `ExecutionID`s of that node that
differ in `JobID` and in `ExecutionID`, with colons inside these components,
and have the same rendering; so the rendering does not identify an
execution. -/
theorem ExecutionID_String_not_injective (ShortID : String → String) (NodeID : String) :
    (∃ x y : ExecutionID, x ≠ y ∧ x.JobID ≠ y.JobID ∧ x.ExecutionID ≠ y.ExecutionID ∧
      x.NodeID = NodeID ∧ y.NodeID = NodeID ∧
      ':' ∈ x.JobID.data ∧ ':' ∈ y.ExecutionID.data ∧
      x.String ShortID = y.String ShortID) ∧
    ¬ Function.Injective (ExecutionID.String ShortID) := by
  have hjob : "a:" ++ ShortID NodeID ≠ "a" := by
    intro h
    have hlen := congrArg String.length h
    rw [String.length_append] at hlen
    have h1 : "a:".length = 2 := by decide
    have h2 : "a".length = 1 := by decide
    omega
  have hexec : "c" ≠ ShortID NodeID ++ ":c" := by
    intro h
    have hlen := congrArg String.length h
    rw [String.length_append] at hlen
    have h1 : ":c".length = 2 := by decide
    have h2 : "c".length = 1 := by decide
    omega
  have hneq : (⟨"a:" ++ ShortID NodeID, NodeID, "c"⟩ : ExecutionID) ≠
      ⟨"a", NodeID, ShortID NodeID ++ ":c"⟩ := by
    intro h
    exact hjob (congrArg ExecutionID.JobID h)
  have hsame : ExecutionID.String ShortID ⟨"a:" ++ ShortID NodeID, NodeID, "c"⟩ =
      ExecutionID.String ShortID ⟨"a", NodeID, ShortID NodeID ++ ":c"⟩ := by
    simp only [ExecutionID.String, Sprintf_three]
    apply String.ext
    simp [String.data_append]
  refine ⟨⟨⟨"a:" ++ ShortID NodeID, NodeID, "c"⟩, ⟨"a", NodeID, ShortID NodeID ++ ":c"⟩,
    hneq, hjob, hexec, rfl, rfl, ?_, ?_, hsame⟩, ?_⟩
  · simp [String.data_append]
  · simp [String.data_append]
  · intro hinj
    exact hneq (hinj hsame)

/-! ## The job execution set -/

/-- A legal transition of the table starts at a state that is not terminal. -/
theorem legalTransition_source_not_terminal (s t : ExecutionStateType)
    (h : legalTransition s t = true) : IsTerminal s = false := by
  simp only [legalTransition, isState, IsTerminal, IsDiscarded, stateConsts, Bool.or_eq_true,
    Bool.and_eq_true, beq_iff_eq, decide_eq_true_eq, Bool.not_eq_true', Bool.or_eq_false_iff,
    beq_eq_false_iff_ne, ne_eq] at h ⊢
  simp only [ExecutionStateType] at h ⊢
  omega

section JobExecutionSetFacts
variable {StorageSpec RunCommandResult Time : Type}

/-- The active, non-terminal records of a job and node are among its live
records. -/
theorem JobExecutionSet.activeFor_length_le
    (set : List (ExecutionState StorageSpec RunCommandResult Time)) (JobID NodeID : String) :
    (JobExecutionSet.activeFor set JobID NodeID).length ≤
      (JobExecutionSet.liveFor set JobID NodeID).length := by
  unfold JobExecutionSet.activeFor JobExecutionSet.liveFor
  rw [← List.countP_eq_length_filter, ← List.countP_eq_length_filter]
  apply List.countP_mono_left
  intro x _ hx
  simp only [Bool.and_eq_true] at hx ⊢
  exact ⟨hx.1.1, hx.2⟩

/-- An accepted creation keeps at most one live record per job and node. -/
theorem JobExecutionSet.create_live
    (set set' : List (ExecutionState StorageSpec RunCommandResult Time))
    (execution : ExecutionState StorageSpec RunCommandResult Time)
    (hinv : ∀ JobID NodeID, (JobExecutionSet.liveFor set JobID NodeID).length ≤ 1)
    (h : JobExecutionSet.create set execution = .ok set') :
    ∀ JobID NodeID, (JobExecutionSet.liveFor set' JobID NodeID).length ≤ 1 := by
  intro JobID NodeID
  unfold JobExecutionSet.create at h
  split_ifs at h with hdup hempty
  cases h
  unfold JobExecutionSet.liveFor at hempty hinv ⊢
  rw [List.filter_append, List.length_append]
  by_cases hp : (execution.JobID == JobID && execution.NodeID == NodeID) = true
  · simp only [Bool.and_eq_true, beq_iff_eq] at hp
    rw [← hp.1, ← hp.2]
    rw [List.isEmpty_iff] at hempty
    rw [hempty]
    simp only [List.length_nil, zero_add]
    exact List.length_filter_le _ _
  · have hnew : List.filter
        (fun x : ExecutionState StorageSpec RunCommandResult Time =>
          x.JobID == JobID && x.NodeID == NodeID && !IsTerminal x.State)
        [{ execution with State := ExecutionStateNew }] = [] := by
      simp only [List.filter_cons, List.filter_nil]
      simp only [Bool.not_eq_true] at hp
      simp [hp]
    rw [hnew]
    exact hinv JobID NodeID

/-- An accepted transition adds no live record to any job and node. -/
theorem JobExecutionSet.transition_live (id : ExecutionID) (expectedVersion : Int)
    (state : ExecutionStateType) (now : Time)
    (set : List (ExecutionState StorageSpec RunCommandResult Time)) :
    ∀ set', JobExecutionSet.transition set id expectedVersion state now = .ok set' →
      ∀ JobID NodeID, (JobExecutionSet.liveFor set' JobID NodeID).length ≤
        (JobExecutionSet.liveFor set JobID NodeID).length := by
  induction set with
  | nil =>
    intro set' h
    simp [JobExecutionSet.transition] at h
  | cons x rest ih =>
    intro set' h JobID NodeID
    unfold JobExecutionSet.transition at h
    by_cases hid : (x.ID == id) = true
    · simp only [hid, if_true] at h
      split_ifs at h with hver hlegal
      cases h
      simp only [Bool.not_eq_true', Bool.not_eq_false] at hlegal
      have hsrc := legalTransition_source_not_terminal x.State state (by simpa using hlegal)
      unfold JobExecutionSet.liveFor
      simp only [List.filter_cons, hsrc, Bool.not_false, Bool.and_true]
      cases hpair : (x.JobID == JobID && x.NodeID == NodeID) with
      | false => simp
      | true =>
        cases hstate : IsTerminal state <;> simp
    · simp only [hid, Bool.false_eq_true, if_false] at h
      cases hrest : JobExecutionSet.transition rest id expectedVersion state now with
      | error e => simp [hrest] at h
      | ok rest' =>
        simp only [hrest] at h
        cases h
        have := ih rest' hrest JobID NodeID
        unfold JobExecutionSet.liveFor at this ⊢
        simp only [List.filter_cons]
        split_ifs <;> simp <;> omega

/-- Every request keeps at most one live record per job and node. -/
theorem JobExecutionSet.step_live
    (set : List (ExecutionState StorageSpec RunCommandResult Time))
    (request : JobExecutionSet.Request StorageSpec RunCommandResult Time)
    (hinv : ∀ JobID NodeID, (JobExecutionSet.liveFor set JobID NodeID).length ≤ 1) :
    ∀ JobID NodeID,
      (JobExecutionSet.liveFor (JobExecutionSet.step set request) JobID NodeID).length ≤ 1 := by
  intro JobID NodeID
  cases request with
  | create execution =>
    cases hc : JobExecutionSet.create set execution with
    | error e =>
      simp only [JobExecutionSet.step, hc]
      exact hinv JobID NodeID
    | ok set' =>
      simp only [JobExecutionSet.step, hc]
      exact JobExecutionSet.create_live set set' execution hinv hc JobID NodeID
  | transition id expectedVersion state now =>
    cases ht : JobExecutionSet.transition set id expectedVersion state now with
    | error e =>
      simp only [JobExecutionSet.step, ht]
      exact hinv JobID NodeID
    | ok set' =>
      simp only [JobExecutionSet.step, ht]
      exact le_trans
        (JobExecutionSet.transition_live id expectedVersion state now set set' ht JobID NodeID)
        (hinv JobID NodeID)

/-- Every set reached from a set with at most one live record per job and node
has at most one live record per job and node. -/
theorem JobExecutionSet.foldl_live
    (requests : List (JobExecutionSet.Request StorageSpec RunCommandResult Time)) :
    ∀ set : List (ExecutionState StorageSpec RunCommandResult Time),
      (∀ JobID NodeID, (JobExecutionSet.liveFor set JobID NodeID).length ≤ 1) →
      ∀ JobID NodeID,
        (JobExecutionSet.liveFor (requests.foldl JobExecutionSet.step set)
          JobID NodeID).length ≤ 1 := by
  induction requests with
  | nil =>
    intro set hinv
    exact hinv
  | cons request rest ih =>
    intro set hinv
    exact ih (JobExecutionSet.step set request) (JobExecutionSet.step_live set request hinv)

end JobExecutionSetFacts

section JobExecutionSetInvariant
variable {StorageSpec RunCommandResult Time : Type}

/-- C7: in every job execution set reached from the empty set by creation and
transition requests, every job and node has at most one record in a state with
`IsActive` true and `IsTerminal` false; creating a further execution for a job
and node that already has such a record is rejected with a conflict error,
while a creation for a job and node without a live record, under an identity
not yet in the set, is accepted and adds the record in state `New`. -/
theorem JobExecutionSet.at_most_one_active
    (requests : List (JobExecutionSet.Request StorageSpec RunCommandResult Time)) :
    (∀ JobID NodeID,
      (JobExecutionSet.activeFor (JobExecutionSet.reach requests) JobID NodeID).length ≤ 1) ∧
    (∀ execution : ExecutionState StorageSpec RunCommandResult Time,
      JobExecutionSet.activeFor (JobExecutionSet.reach requests)
        execution.JobID execution.NodeID ≠ [] →
      JobExecutionSet.create (JobExecutionSet.reach requests) execution =
        .error "conflict") ∧
    (∀ execution : ExecutionState StorageSpec RunCommandResult Time,
      JobExecutionSet.liveFor (JobExecutionSet.reach requests)
        execution.JobID execution.NodeID = [] →
      (∀ x ∈ JobExecutionSet.reach requests, x.ID ≠ execution.ID) →
      JobExecutionSet.create (JobExecutionSet.reach requests) execution =
        .ok (JobExecutionSet.reach requests ++ [{ execution with State := ExecutionStateNew }])) := by
  have hlive : ∀ JobID NodeID,
      (JobExecutionSet.liveFor (JobExecutionSet.reach requests) JobID NodeID).length ≤ 1 := by
    unfold JobExecutionSet.reach
    refine JobExecutionSet.foldl_live requests [] ?_
    intro JobID NodeID
    simp [JobExecutionSet.liveFor]
  refine ⟨?_, ?_, ?_⟩
  · intro JobID NodeID
    exact le_trans (JobExecutionSet.activeFor_length_le _ JobID NodeID) (hlive JobID NodeID)
  · intro execution hactive
    have hlen := JobExecutionSet.activeFor_length_le (JobExecutionSet.reach requests)
      execution.JobID execution.NodeID
    have hpos : 0 < (JobExecutionSet.activeFor (JobExecutionSet.reach requests)
        execution.JobID execution.NodeID).length := List.length_pos.2 hactive
    have hne : (JobExecutionSet.liveFor (JobExecutionSet.reach requests)
        execution.JobID execution.NodeID).isEmpty = false := by
      cases hl : JobExecutionSet.liveFor (JobExecutionSet.reach requests)
          execution.JobID execution.NodeID with
      | nil =>
        rw [hl] at hlen
        simp only [List.length_nil] at hlen
        omega
      | cons _ _ => rfl
    unfold JobExecutionSet.create
    rw [hne]
    simp
  · intro execution hnone hfresh
    have hdup : ((JobExecutionSet.reach requests).any fun x => x.ID == execution.ID) = false := by
      rw [List.any_eq_false]
      intro x hx
      simpa using hfresh x hx
    unfold JobExecutionSet.create
    rw [hdup, hnone]
    rfl

end JobExecutionSetInvariant

/-- C7 at scenario B: the set reached holds the first execution of `node-a` in
`AskForBidRejected` and the second in `BidAccepted`, so one active record, and
a third execution for `node-a` is rejected; an execution created while the
first of its node is still `New` is rejected too, and one for another node is
accepted. -/
theorem JobExecutionSet.at_most_one_active_witness :
    JobExecutionSet.reach scenarioB =
      [{ newExecution "node-a" "e1" with
          State := ExecutionStateAskForBidRejected, Version := 2 },
        { newExecution "node-a" "e2" with
          State := ExecutionStateBidAccepted, Version := 3, AcceptedAskForBid := true }] ∧
    (JobExecutionSet.activeFor (JobExecutionSet.reach scenarioB) "job-1" "node-a").length = 1 ∧
    (JobExecutionSet.activeFor (JobExecutionSet.reach scenarioB) "job-1" "node-a").length ≤ 1 ∧
    JobExecutionSet.create (JobExecutionSet.reach scenarioB) (newExecution "node-a" "e3") =
      .error "conflict" ∧
    JobExecutionSet.create (JobExecutionSet.reach scenarioB) (newExecution "node-b" "e3") =
      .ok (JobExecutionSet.reach scenarioB ++ [newExecution "node-b" "e3"]) ∧
    JobExecutionSet.reach
      [.create (newExecution "node-a" "e1"), .create (newExecution "node-a" "e2")] =
      [newExecution "node-a" "e1"] :=
  ⟨by decide, by decide,
    (JobExecutionSet.at_most_one_active scenarioB).1 "job-1" "node-a",
    (JobExecutionSet.at_most_one_active scenarioB).2.1 (newExecution "node-a" "e3")
      (by decide),
    (JobExecutionSet.at_most_one_active scenarioB).2.2 (newExecution "node-b" "e3")
      (by decide) (by decide),
    by decide⟩
